import Mathlib

/-!
# go-replace: the changeset application engine

A shallow embedding of `main.go`, `filehandling.go`, `template.go` and `log.go`:
the per-line rewrite loop `applyChangesetsToLine`, the per-file pass
`applyChangesetsToFile`, the sink `WriteContentToFile`, the dispatcher
`actionProcessFiles`, and the option handling of `handleSpecialCliOptions`,
`buildChangesets`, `buildFileitems` and `ReplaceMain`.

Conventions:
* Go strings are Lean strings, a Go `error` is its message (`none` is `nil`),
  and the package-level variable `opts` is passed explicitly.
* A function that writes to a slice or to the outside world returns the slice
  and the `World` as it leaves them; a call that may panic returns an `Exec`.
* The functions `SearchMatch`, `ReplaceText` and `HandleLineInFile`, whose
  bodies are not among the sources, are parameters (`Collaborators`), and so
  are the libraries (`Regexp`, `Library`).
* The goroutines of `actionProcessFiles` run one after the other in an order
  given as a `Schedule`.
-/

namespace GoReplace

/-! ## Data model -/

/-- A Go `error` value, identified with its message. -/
abbrev Error := String

/-- The methods of a compiled `*regexp.Regexp` that the program calls. The
regexp library is external, so a compiled pattern is the record of what these
methods return. -/
structure Regexp where
  MatchString : String → Bool
  Find : String → String
  ReplaceAllString : String → String → String
  ReplaceAllLiteralString : String → String → String

/-- The rule type `Changeset` of `main.go`. -/
structure Changeset where
  SearchPlain : String
  Search : Regexp
  Replace : String
  MatchFound : Bool

/-- The type `Fileitem` of `main.go`. -/
structure Fileitem where
  Path : String
  Output : String
deriving DecidableEq, Repr

/-- The type `Changeresult` of `main.go`. -/
structure Changeresult where
  File : Fileitem
  Output : String
  Status : Bool
  Error : Option Error
deriving DecidableEq, Repr

/-- The package-level variable `opts` of `main.go`. -/
structure Options where
  ThreadCount : Int := 20
  Mode : String := "replace"
  ModeIsReplaceMatch : Bool := false
  ModeIsReplaceLine : Bool := false
  ModeIsLineInFile : Bool := false
  ModeIsTemplate : Bool := false
  Search : List String := []
  Replace : List String := []
  LineinfileBefore : String := ""
  LineinfileAfter : String := ""
  CaseInsensitive : Bool := false
  Stdin : Bool := false
  Output : String := ""
  OutputStripFileExt : String := ""
  Once : String := ""
  Regex : Bool := false
  RegexBackref : Bool := false
  RegexPosix : Bool := false
  Path : String := ""
  PathPattern : String := ""
  PathRegex : String := ""
  IgnoreEmpty : Bool := false
  Verbose : Bool := false
  DryRun : Bool := false
  ShowVersion : Bool := false
  ShowOnlyVersion : Bool := false
  ShowHelp : Bool := false
deriving DecidableEq, Repr

/-- The functions of the package that `main.go` calls and whose bodies are not
part of the reviewed sources: `SearchMatch`, `ReplaceText` and
`HandleLineInFile`. They read `opts`, receive their changeset by value and
return a value; every general theorem below holds for all of them. -/
structure Collaborators where
  SearchMatch : Options → String → Changeset → Bool
  ReplaceText : Options → String → Changeset → String
  HandleLineInFile : Options → List Changeset → String → String × Bool

/-! ## The line processor -/

/-- What `applyChangesetsToLine` returns, together with the slice `changesets`
as the call leaves it (the loop writes `changesets[i].MatchFound`). -/
structure LineResult where
  line : String
  changed : Bool
  skipLine : Bool
  changesets : List Changeset

/-- The assignment to `line` in the matching branch of `applyChangesetsToLine`
(`main.go`, lines 171-186). -/
def rewriteLine (cb : Collaborators) (opts : Options) (line : String)
    (changeset : Changeset) : String :=
  if opts.ModeIsReplaceLine = true ∨ opts.ModeIsLineInFile = true then
    if opts.RegexBackref = true then
      changeset.Search.ReplaceAllString (changeset.Search.Find line) changeset.Replace
    else
      changeset.Replace
  else
    cb.ReplaceText opts line changeset

/-- The `for i, changeset := range changesets` loop of `applyChangesetsToLine`
from the current values of `line` and `changed` over the rules still to visit.
The `break` of the unique branch returns at once, leaving the later rules as
they are. -/
def applyChangesetsLoop (cb : Collaborators) (opts : Options) :
    String → Bool → List Changeset → LineResult
  | line, changed, [] => ⟨line, changed, false, []⟩
  | line, changed, changeset :: rest =>
    if opts.Once ≠ "" ∧ changeset.MatchFound = true then
      if opts.Once = "unique" ∧ cb.SearchMatch opts line changeset = true then
        ⟨line, true, true, changeset :: rest⟩
      else
        let r := applyChangesetsLoop cb opts line changed rest
        ⟨r.line, r.changed, r.skipLine, changeset :: r.changesets⟩
    else
      if cb.SearchMatch opts line changeset = true then
        let r := applyChangesetsLoop cb opts (rewriteLine cb opts line changeset) true rest
        ⟨r.line, r.changed, r.skipLine,
          { changeset with MatchFound := true } :: r.changesets⟩
      else
        let r := applyChangesetsLoop cb opts line changed rest
        ⟨r.line, r.changed, r.skipLine, changeset :: r.changesets⟩

/-- The function `applyChangesetsToLine` of `main.go`. -/
def applyChangesetsToLine (cb : Collaborators) (opts : Options) (line : String)
    (changesets : List Changeset) : LineResult :=
  applyChangesetsLoop cb opts line false changesets

/-! ## Reading and writing files -/

/-- A `bufio.Reader` over an opened file: the `(line, isPrefix)` results that
successive `ReadLine` calls return with a nil error, and the error that
`ReadLine` returns after them: `io.EOF` at the end of the input, or whatever
the read failed with. `ReadLine` never returns both a line and an error. -/
structure Reader where
  chunks : List (String × Bool)
  final : Error

/-- The error `io.EOF`. -/
def EOF : Error := "EOF"

/-- The loop `for isPrefix && err == nil` of `Readln` over the results
`ReadLine` has still to give, with `ln` as accumulated so far. Returns
`string(ln)`, `err` and what is left of the input. -/
def ReadlnLoop (final : Error) :
    List (String × Bool) → String → (String × Option Error) × List (String × Bool)
  | [], ln => ((ln, some final), [])
  | (line, isPrefix) :: rest, ln =>
    if isPrefix = true then ReadlnLoop final rest (ln ++ line)
    else ((ln ++ line, none), rest)

/-- The function `Readln` of `filehandling.go`: one logical line, put together
from the fragments `ReadLine` returns while `isPrefix` is set. -/
def Readln (r : Reader) : (String × Option Error) × Reader :=
  let res := ReadlnLoop r.final r.chunks ""
  (res.1, { r with chunks := res.2 })

/-- A file (not a directory) that `filepath.Walk` comes to below its root:
its path, its base name `f.Name()`, and the names of the directories above it,
the root included. -/
structure WalkEntry where
  path : String
  name : String
  dirs : List String

/-- The part of the outside world the program touches. `Open` is `os.Open`
followed by `bufio.NewReader`, `ReadFile` is `os.ReadFile`, and `WriteFile`
tells whether `os.WriteFile` of a content to a path fails. `Walk` gives the
files below a root in the order `filepath.Walk` visits them, or the error the
walk hands to its callback. `Environ` is `os.Environ()`, `stdin` the lines a
`bufio.Scanner` reads from `os.Stdin`. `disk` records the writes that
succeeded, latest first, `stdout` and `stderr` what was printed. Files are read
as they were when the run started. -/
structure World where
  Open : String → Except Error Reader
  ReadFile : String → Except Error String
  WriteFile : String → String → Option Error
  Walk : String → Except Error (List WalkEntry)
  Environ : List String
  stdin : List String
  disk : List (String × String)
  stdout : String
  stderr : String

/-- A Go call that either returns or panics. -/
inductive Exec (α : Type) where
  | ret : α → Exec α
  | panic : Error → Exec α

/-- The function `WriteContentToFile` of `filehandling.go`: the returned
`(string, bool)` and the world after the call, or the panic. -/
def WriteContentToFile (opts : Options) (w : World) (fileitem : Fileitem)
    (content : String) : Exec ((String × Bool) × World) :=
  if opts.DryRun = true then
    .ret ((content, true), w)
  else
    match w.WriteFile fileitem.Output content with
    | some err => .panic err
    | none =>
      .ret ((fileitem.Path ++ " found and replaced match\n", true),
        { w with disk := (fileitem.Output, content) :: w.disk })

/-! ## The file processing engine -/

/-- The local variables `buffer` and `writeBufferToFile` of
`applyChangesetsToFile`, and the slice `changesets` it works on. -/
structure PassState where
  buffer : String
  writeBufferToFile : Bool
  changesets : List Changeset

/-- The body of the `for e == nil` loop of `applyChangesetsToFile` without the
closing `Readln` (`main.go`, lines 96-104). -/
def passLine (cb : Collaborators) (opts : Options) (st : PassState) (line : String) :
    PassState :=
  let res := applyChangesetsToLine cb opts line st.changesets
  { buffer := if res.skipLine = true then st.buffer else st.buffer ++ (res.line ++ "\n")
    writeBufferToFile :=
      if res.changed = true ∨ res.skipLine = true then true else st.writeBufferToFile
    changesets := res.changesets }

/-- The loop `for e == nil` of `applyChangesetsToFile` from the current `line`
and `e`. Every turn with a nil `e` reads at least one chunk, so a fuel above
the number of chunks is never used up (`readLoop_eq_foldl`). -/
def readLoop (cb : Collaborators) (opts : Options) :
    Nat → Reader → String → Option Error → PassState → PassState
  | 0, _, _, _, st => st
  | fuel + 1, r, line, e, st =>
    match e with
    | some _ => st
    | none =>
      let next := Readln r
      readLoop cb opts fuel next.2 next.1.1 next.1.2 (passLine cb opts st line)

/-- The line pass of `applyChangesetsToFile` (`main.go`, lines 90-107): the
first `Readln` and the loop. -/
def linePass (cb : Collaborators) (opts : Options) (r : Reader)
    (changesets : List Changeset) : PassState :=
  let first := Readln r
  readLoop cb opts (r.chunks.length + 1) first.2 first.1.1 first.1.2
    ⟨"", false, changesets⟩

/-- The `--mode=lineinfile` step of `applyChangesetsToFile` (`main.go`, lines
110-118). -/
def lineInFileStep (cb : Collaborators) (opts : Options) (st : PassState) : PassState :=
  if opts.ModeIsLineInFile = true then
    let lif := cb.HandleLineInFile opts st.changesets st.buffer
    if lif.2 = true then { st with buffer := lif.1, writeBufferToFile := lif.2 }
    else st
  else st

/-- The forced write of `--output` and `--output-strip-ext` (`main.go`, lines
120-125). -/
def forceWriteStep (opts : Options) (st : PassState) : PassState :=
  if opts.Output ≠ "" ∨ opts.OutputStripFileExt ≠ "" then
    { st with writeBufferToFile := true }
  else st

/-- What `applyChangesetsToFile` and `applyTemplateToFile` return, with the
slice `changesets` and the world as the call leaves them. -/
structure FileReturn where
  output : String
  status : Bool
  err : Option Error
  changesets : List Changeset
  world : World

/-- The assignment `output, status = WriteContentToFile(fileitem, buffer)`
followed by `return output, status, err` with the nil `err` of `os.Open`; a
panic of the callee goes on. -/
def returnOfSink (changesets : List Changeset) :
    Exec ((String × Bool) × World) → Exec FileReturn
  | .panic err => .panic err
  | .ret ((output, status), w') => .ret ⟨output, status, none, changesets, w'⟩

/-- The end of `applyChangesetsToFile` (`main.go`, lines 127-133): the buffer
goes to `WriteContentToFile`, or the report is `no match`. The returned `err`
is the one of `os.Open`, nil here. -/
def finishFile (opts : Options) (w : World) (fileitem : Fileitem) (st : PassState) :
    Exec FileReturn :=
  if st.writeBufferToFile = true then
    returnOfSink st.changesets (WriteContentToFile opts w fileitem st.buffer)
  else
    .ret ⟨fileitem.Path ++ " no match", true, none, st.changesets, w⟩

/-- The function `applyChangesetsToFile` once the file is open (`main.go`,
lines 90-133). -/
def applyChangesetsToOpenFile (cb : Collaborators) (opts : Options) (w : World)
    (fileitem : Fileitem) (r : Reader) (changesets : List Changeset) : Exec FileReturn :=
  finishFile opts w fileitem
    (forceWriteStep opts (lineInFileStep cb opts (linePass cb opts r changesets)))

/-- The function `applyChangesetsToFile` of `main.go`. -/
def applyChangesetsToFile (cb : Collaborators) (opts : Options) (w : World)
    (fileitem : Fileitem) (changesets : List Changeset) : Exec FileReturn :=
  match w.Open fileitem.Path with
  | .error err => .ret ⟨"", false, some err, changesets, w⟩
  | .ok r => applyChangesetsToOpenFile cb opts w fileitem r changesets

/-! ## Concrete patterns and collaborators for the scenarios -/

/-- Whether the characters `pat` occur in a row somewhere in the list. -/
def containsChars (pat : List Char) : List Char → Bool
  | [] => pat.isEmpty
  | c :: cs => pat.isPrefixOf (c :: cs) || containsChars pat cs

/-- Replace every occurrence of the non-empty `pat`, leftmost first and
without overlap, by what `rep` makes of it; `skip` counts the characters of an
occurrence still to pass over. -/
def replaceChars (pat : List Char) (rep : List Char → List Char) :
    Nat → List Char → List Char
  | _, [] => []
  | skip + 1, _ :: cs => replaceChars pat rep skip cs
  | 0, c :: cs =>
    if pat.isPrefixOf (c :: cs) = true then rep pat ++ replaceChars pat rep (pat.length - 1) cs
    else c :: replaceChars pat rep 0 cs

/-- The pattern `regexp.MustCompile(regexp.QuoteMeta(term))` that
`buildSearchTerm` compiles for a non-empty search term without `--regex`: it
matches the occurrences of `term`. `expand` is how the regexp library fills a
replacement template from a match (its `$` references). -/
def literalRegexp (term : String) (expand : String → String → String) : Regexp where
  MatchString := fun s => containsChars term.data s.data
  Find := fun s => if containsChars term.data s.data = true then term else ""
  ReplaceAllString := fun s template =>
    ⟨replaceChars term.data (fun m => (expand template ⟨m⟩).data) 0 s.data⟩
  ReplaceAllLiteralString := fun s repl =>
    ⟨replaceChars term.data (fun _ => repl.data) 0 s.data⟩

/-- The pattern `regexp.MustCompile("^#.*")` on a line (a text without line
feed): it matches a line that starts with `#`, and its one match is the whole
line. -/
def hashLineRegexp (expand : String → String → String) : Regexp where
  MatchString := fun s => s.data.head? == some '#'
  Find := fun s => if s.data.head? == some '#' then s else ""
  ReplaceAllString := fun s template =>
    if s.data.head? == some '#' then expand template s else s
  ReplaceAllLiteralString := fun s repl =>
    if s.data.head? == some '#' then repl else s

/-- Modelled from the spec: the bodies of `SearchMatch` and `ReplaceText` are
missing from the sources. `SearchMatch` tests whether the line matches the
rule's pattern; `ReplaceText` replaces only the matched occurrences within the
line, with backreference substitution if enabled, else literally.
`HandleLineInFile` is left as it comes. -/
def specCollaborators (lif : Options → List Changeset → String → String × Bool) :
    Collaborators where
  SearchMatch := fun _ line changeset => changeset.Search.MatchString line
  ReplaceText := fun opts line changeset =>
    if opts.RegexBackref = true then
      changeset.Search.ReplaceAllString line changeset.Replace
    else
      changeset.Search.ReplaceAllLiteralString line changeset.Replace
  HandleLineInFile := lif

/-- The rule that `buildChangesets` makes of a literal search term. -/
def literalRule (search replace : String) (expand : String → String → String) :
    Changeset :=
  ⟨search, literalRegexp search expand, replace, false⟩

/-- A reader over a file of complete lines that ends with `io.EOF`. -/
def readerOfLines (lines : List String) : Reader :=
  ⟨lines.map (fun l => (l, false)), EOF⟩

/-! ## Logging -/

/-- The function `logMessage` of `log.go`. -/
def logMessage (opts : Options) (w : World) (message : String) : World :=
  if opts.Verbose = true then { w with stderr := w.stderr ++ message } else w

/-- The function `logError` of `log.go`. -/
def logError (w : World) (err : Error) : World :=
  { w with stderr := w.stderr ++ ("Error: " ++ err ++ "\n") }

/-! ## Template mode -/

/-- The type `templateData` of `template.go`; a Go map is its lookup. -/
structure templateData where
  Arg : String → Option String
  Env : String → Option String

/-- The libraries the program calls: `regexp` (`QuoteMeta`, `MustCompile`,
`MustCompilePOSIX`, which panic with the error given here), `filepath.Match`,
`text/template` with the sprig functions (`Parse` gives the parsed template as
what `Execute` writes to the buffer and returns), and the help text and command
name of the flags parser. -/
structure Library where
  QuoteMeta : String → String
  MustCompile : String → Except Error Regexp
  MustCompilePOSIX : String → Except Error Regexp
  Match : String → String → Bool
  Parse : String → Except Error (templateData → String × Option Error)
  Help : String
  CommandName : String

/-- The assignment `m[key] = value` on a Go map. -/
def mapSet (m : String → Option String) (key value : String) : String → Option String :=
  fun k => if k = key then some value else m k

/-- The two parts of `strings.SplitN(s, sep, 2)` when the one-byte separator
occurs in `s`: what stands before its first occurrence and what stands after. -/
def splitFirst (sep : Char) : List Char → Option (List Char × List Char)
  | [] => none
  | c :: cs =>
    if c = sep then some ([], cs)
    else (splitFirst sep cs).map (fun p => (c :: p.1, p.2))

/-- The loop over `os.Environ()` of `generateTemplateData`. An entry without
`=` splits into one part, and `split[1]` panics. -/
def environLoop : List String → (String → Option String) → Exec (String → Option String)
  | [], env => .ret env
  | e :: rest, env =>
    match splitFirst '=' e.data with
    | none => .panic "runtime error: index out of range [1] with length 1"
    | some (envKey, envValue) => environLoop rest (mapSet env ⟨envKey⟩ ⟨envValue⟩)

/-- The function `generateTemplateData` of `template.go`. -/
def generateTemplateData (w : World) (changesets : List Changeset) : Exec templateData :=
  let arg := changesets.foldl (fun m changeset => mapSet m changeset.SearchPlain changeset.Replace)
    (fun _ => none)
  match environLoop w.Environ (fun _ => none) with
  | .panic err => .panic err
  | .ret env => .ret ⟨arg, env⟩

/-- The function `ParseContentAsTemplate` of `template.go`: the buffer and the
error it returns. -/
def ParseContentAsTemplate (lib : Library) (w : World) (templateContent : String)
    (changesets : List Changeset) : Exec (String × Option Error) :=
  match generateTemplateData w changesets with
  | .panic err => .panic err
  | .ret data =>
    match lib.Parse templateContent with
    | .error err => .ret ("", some err)
    | .ok tmpl =>
      match tmpl data with
      | (content, some err) => .ret (content, some err)
      | (content, none) => .ret (content, none)

/-- The function `applyTemplateToFile` of `main.go`. -/
def applyTemplateToFile (lib : Library) (opts : Options) (w : World) (fileitem : Fileitem)
    (changesets : List Changeset) : Exec FileReturn :=
  match w.ReadFile fileitem.Path with
  | .error err => .ret ⟨"", false, some err, changesets, w⟩
  | .ok buffer =>
    match ParseContentAsTemplate lib w buffer changesets with
    | .panic err => .panic err
    | .ret (_, some err) => .ret ⟨"", false, some err, changesets, w⟩
    | .ret (content, none) =>
      match WriteContentToFile opts w fileitem content with
      | .panic err => .panic err
      | .ret ((output, status), w') => .ret ⟨output, status, none, changesets, w'⟩

/-! ## The dispatcher -/

/-- The `sizedwaitgroup.SizedWaitGroup` of the dispatcher: its `Size` and the
number of slots held. -/
structure SizedWaitGroup where
  Size : Nat
  current : Nat
deriving DecidableEq, Repr

/-- The function `sizedwaitgroup.New`: a limit that is not positive means
`math.MaxInt32`. -/
def SizedWaitGroup.New (limit : Int) : SizedWaitGroup :=
  ⟨if 0 < limit then limit.toNat else 2147483647, 0⟩

/-- The method `Add`: it takes a slot, and blocks (`none`) while all are
held. -/
def SizedWaitGroup.Add (swg : SizedWaitGroup) : Option SizedWaitGroup :=
  if swg.current < swg.Size then some { swg with current := swg.current + 1 } else none

/-- The method `Done`: it gives a slot back. -/
def SizedWaitGroup.Done (swg : SizedWaitGroup) : SizedWaitGroup :=
  { swg with current := swg.current - 1 }

/-- The pool that `actionProcessFiles` creates (`main.go`, line 346). -/
def newPool (_opts : Options) : SizedWaitGroup := SizedWaitGroup.New 8

/-- What the dispatcher does to its pool: the main loop takes a slot before it
starts a task (`spawn`), a task gives its slot back when it ends (`finish`). -/
inductive PoolEvent where
  | spawn
  | finish
deriving DecidableEq, Repr

/-- The pool after a sequence of events, from a pool in which `running` tasks
hold a slot; `none` when the sequence cannot happen, the main loop being
blocked in `Add`, or no task being there to end. -/
def poolRun : SizedWaitGroup → List PoolEvent → Option SizedWaitGroup
  | swg, [] => some swg
  | swg, .spawn :: rest =>
    match swg.Add with
    | none => none
    | some swg' => poolRun swg' rest
  | swg, .finish :: rest =>
    if 0 < swg.current then poolRun swg.Done rest else none

/-- The body of the goroutine of `actionProcessFiles` (`main.go`, lines
352-367): the result it sends on the channel, and the slice `changesets`, which
shares its elements with the slice of every other goroutine, as the task
leaves it. -/
def fileTask (cb : Collaborators) (lib : Library) (opts : Options) (w : World)
    (file : Fileitem) (changesets : List Changeset) :
    Exec (Changeresult × List Changeset × World) :=
  match (if opts.ModeIsTemplate = true then applyTemplateToFile lib opts w file changesets
    else applyChangesetsToFile cb opts w file changesets) with
  | .panic err => .panic err
  | .ret r => .ret (⟨file, r.output, r.status, r.err⟩, r.changesets, r.world)

/-- The tasks of the dispatcher under a schedule that runs them one after the
other, each to its end, in the order given: the results in the order they are
sent on the channel. A panic in a goroutine ends the process. The schedules in
which tasks overlap are not modelled. -/
def runTasks (cb : Collaborators) (lib : Library) (opts : Options) :
    World → List Changeset → List Fileitem → Exec (List Changeresult × List Changeset × World)
  | w, changesets, [] => .ret ([], changesets, w)
  | w, changesets, file :: rest =>
    match fileTask cb lib opts w file changesets with
    | .panic err => .panic err
    | .ret (result, changesets', w') =>
      match runTasks cb lib opts w' changesets' rest with
      | .panic err => .panic err
      | .ret (results, changesets'', w'') => .ret (result :: results, changesets'', w'')

/-- The body of the loop `for result := range results` of `actionProcessFiles`
(`main.go`, lines 376-390) on `errorCount` and the world. -/
def showResult (opts : Options) (acc : Nat × World) (result : Changeresult) : Nat × World :=
  match result.Error with
  | some err => (acc.1 + 1, logError acc.2 err)
  | none =>
    if opts.Verbose = true then
      let title := result.File.Path ++ ":"
      let dashes : String := ⟨List.replicate title.utf8ByteSize '-'⟩
      let block := "\n" ++ title ++ "\n" ++ dashes ++ "\n" ++ "\n" ++ result.Output ++ "\n" ++ "\n"
      (acc.1, { acc.2 with stderr := acc.2.stderr ++ block })
    else acc

/-- The end of `actionProcessFiles` (`main.go`, lines 374-397) on the results
in the order they come off the channel. -/
def showResults (lib : Library) (opts : Options) (w : World) (results : List Changeresult) :
    (Int × Option Error) × World :=
  let acc := results.foldl (showResult opts) (0, w)
  if 1 ≤ acc.1 then
    let message := "[ERROR] " ++ lib.CommandName ++ " failed with " ++ toString acc.1
      ++ " error(s)\n"
    ((1, some "One or more files failed"), { acc.2 with stderr := acc.2.stderr ++ message })
  else ((0, none), acc.2)

/-- The order in which the tasks of a file list run. -/
abbrev Schedule := List Fileitem → List Fileitem

/-- The function `actionProcessFiles` of `main.go` under a schedule that runs
the tasks one after the other. -/
def actionProcessFiles (cb : Collaborators) (lib : Library) (opts : Options)
    (schedule : Schedule) (w : World) (changesets : List Changeset)
    (fileitems : List Fileitem) : Exec ((Int × Option Error) × World) :=
  if fileitems.length = 0 then
    if opts.IgnoreEmpty = true then
      .ret ((0, none), logMessage opts w "No files found, requsted to ignore this")
    else
      .ret ((1, some "No files specified"), w)
  else
    match runTasks cb lib opts w changesets (schedule fileitems) with
    | .panic err => .panic err
    | .ret (results, _, w') => .ret (showResults lib opts w' results)

/-- The number of results with a non-nil `Error`. -/
def failureCount (results : List Changeresult) : Nat :=
  results.countP (fun result => result.Error.isSome)

/-! ## Options, rules and file list -/

/-- The constants `gitTag`, `gitCommit` and `Author` of `main.go`. -/
def gitTag : String := "<unknown>"

/-- The constant `gitCommit`. -/
def gitCommit : String := "<unknown>"

/-- The constant `Author`. -/
def Author : String := "webdevops.io"

/-- The variable `pathFilterDirectories` of `main.go`. -/
def pathFilterDirectories : List String :=
  ["autom4te.cache", "blib", "_build", ".bzr", ".cdv", "cover_db", "CVS", "_darcs", "~.dep",
    "~.dot", ".git", ".hg", "~.nib", ".pc", "~.plst", "RCS", "SCCS", "_sgbak", ".svn", "_obj",
    ".idea"]

/-- The `switch` on `opts.Mode` of `handleSpecialCliOptions` (`main.go`, lines
258-280). -/
def setMode (opts : Options) : Options :=
  if opts.Mode = "replace" then
    { opts with ModeIsReplaceMatch := true, ModeIsReplaceLine := false,
                ModeIsLineInFile := false, ModeIsTemplate := false }
  else if opts.Mode = "line" then
    { opts with ModeIsReplaceMatch := false, ModeIsReplaceLine := true,
                ModeIsLineInFile := false, ModeIsTemplate := false }
  else if opts.Mode = "lineinfile" then
    { opts with ModeIsReplaceMatch := false, ModeIsReplaceLine := false,
                ModeIsLineInFile := true, ModeIsTemplate := false }
  else if opts.Mode = "template" then
    { opts with ModeIsReplaceMatch := false, ModeIsReplaceLine := false,
                ModeIsLineInFile := false, ModeIsTemplate := true }
  else opts

/-- What `handleSpecialCliOptions` returns, with `opts` and the world as it
leaves them. -/
structure CliReturn where
  shouldExit : Bool
  err : Option Error
  opts : Options
  world : World

/-- The function `handleSpecialCliOptions` of `main.go`. -/
def handleSpecialCliOptions (lib : Library) (opts : Options) (w : World)
    (args : List String) : CliReturn :=
  if opts.ShowOnlyVersion = true then
    ⟨true, none, opts, { w with stdout := w.stdout ++ gitTag ++ "\n" }⟩
  else if opts.ShowVersion = true then
    let version := "go-replace version " ++ gitTag ++ " (" ++ gitCommit ++ ")\n"
    let copyright := "Copyright (C) 2022 " ++ Author ++ "\n"
    ⟨true, none, opts, { w with stdout := w.stdout ++ version ++ copyright }⟩
  else if opts.ShowHelp = true then
    ⟨true, none, opts, { w with stdout := w.stdout ++ lib.Help }⟩
  else
    let opts := setMode opts
    if opts.Output ≠ "" ∧ 1 < args.length then
      ⟨true, some "only one file is allowed when using --output", opts, w⟩
    else if opts.LineinfileBefore ≠ "" ∨ opts.LineinfileAfter ≠ "" then
      if ¬ (opts.ModeIsLineInFile = true) then
        ⟨true, some
          "--lineinfile-after and --lineinfile-before only valid in --mode=lineinfile",
          opts, w⟩
      else if opts.LineinfileBefore ≠ "" ∧ opts.LineinfileAfter ≠ "" then
        ⟨true, some
          "only --lineinfile-after or --lineinfile-before is allowed in --mode=lineinfile",
          opts, w⟩
      else ⟨false, none, opts, w⟩
    else ⟨false, none, opts, w⟩

/-- The function `buildSearchTerm` of `main.go`; `MustCompile` and
`MustCompilePOSIX` panic on a pattern that does not compile. -/
def buildSearchTerm (lib : Library) (opts : Options) (w : World) (term : String) :
    Exec (Regexp × World) :=
  let regex := if opts.Regex = true then term else lib.QuoteMeta term
  let regex := if opts.CaseInsensitive = true then "(?i:" ++ regex ++ ")" else regex
  let w := if opts.Verbose = true then
      logMessage opts w ("Using regular expression: " ++ regex)
    else w
  match (if opts.RegexPosix = true then lib.MustCompilePOSIX regex else lib.MustCompile regex) with
  | .error err => .panic err
  | .ok ret => .ret (ret, w)

/-- The loop `for i := range opts.Search` of `buildChangesets`, over the
search terms still to visit paired with their replace terms. -/
def buildChangesetsLoop (lib : Library) (opts : Options) :
    World → List Changeset → List (String × String) → Exec (List Changeset × World)
  | w, changesets, [] => .ret (changesets, w)
  | w, changesets, (search, replace) :: rest =>
    match buildSearchTerm lib opts w search with
    | .panic err => .panic err
    | .ret (regex, w') =>
      buildChangesetsLoop lib opts w' (changesets ++ [⟨search, regex, replace, false⟩]) rest

/-- The function `buildChangesets` of `main.go`. -/
def buildChangesets (lib : Library) (opts : Options) (w : World) :
    Exec (Except Error (List Changeset) × World) :=
  if ¬ (opts.ModeIsTemplate = true) ∧ (opts.Search.length = 0 ∨ opts.Replace.length = 0) then
    .ret (.error "Missing either --search or --replace for this mode", w)
  else if opts.Search.length ≠ opts.Replace.length then
    .ret (.error "Unequal numbers of search or replace options", w)
  else
    match buildChangesetsLoop lib opts w [] (opts.Search.zip opts.Replace) with
    | .panic err => .panic err
    | .ret (changesets, w') => .ret (.ok changesets, w')

/-- The function `strings.TrimSuffix`. -/
def TrimSuffix (s suffix : String) : String :=
  if suffix.data.isSuffixOf s.data = true then
    ⟨s.data.take (s.data.length - suffix.data.length)⟩
  else s

/-- Modelled from the spec: the helper `contains` is missing from the sources;
it tells whether a name is on the skip-list of directory names. -/
def contains (list : List String) (name : String) : Bool := list.elem name

/-- The function `SearchFilesInPath` of `filehandling.go`: the paths it calls
the callback with, in order. A directory on the skip-list is not entered, so a
file is reached when none of the directories above it is on the list. The
function panics when `--path-regex` does not compile or the walk fails. -/
def SearchFilesInPath (lib : Library) (opts : Options) (w : World) (path : String) :
    Exec (List String) :=
  match (if opts.PathRegex ≠ "" then (lib.MustCompile opts.PathRegex).map some
    else .ok none) with
  | .error err => .panic err
  | .ok pathRegex =>
    match w.Walk path with
    | .error err => .panic err
    | .ok entries =>
      .ret ((entries.filter (fun f =>
        !(f.dirs.any (fun dir => contains pathFilterDirectories dir))
        && (opts.PathPattern == "" || lib.Match opts.PathPattern f.name)
        && (match pathRegex with
            | none => true
            | some regex => regex.MatchString f.path))).map (fun f => f.path))

/-- The body of the loop over `args` of `buildFileitems` (`main.go`, lines
436-452). -/
def argFileitem (opts : Options) (filepath : String) : Fileitem :=
  if opts.Output ≠ "" then
    ⟨filepath, opts.Output⟩
  else if opts.OutputStripFileExt ≠ "" then
    ⟨filepath, TrimSuffix filepath opts.OutputStripFileExt⟩
  else
    match splitFirst ':' filepath.data with
    | some (source, destination) => ⟨⟨source⟩, ⟨destination⟩⟩
    | none => ⟨filepath, filepath⟩

/-- The callback that `buildFileitems` gives to `SearchFilesInPath` (`main.go`,
lines 457-468). -/
def pathFileitem (opts : Options) (filepath : String) : Fileitem :=
  if opts.OutputStripFileExt ≠ "" then
    ⟨filepath, TrimSuffix filepath opts.OutputStripFileExt⟩
  else ⟨filepath, filepath⟩

/-- The function `buildFileitems` of `main.go`. -/
def buildFileitems (lib : Library) (opts : Options) (w : World) (args : List String) :
    Exec (List Fileitem) :=
  let fileitems := args.map (argFileitem opts)
  if opts.Path ≠ "" then
    match SearchFilesInPath lib opts w opts.Path with
    | .panic err => .panic err
    | .ret found => .ret (fileitems ++ found.map (pathFileitem opts))
  else .ret fileitems

/-! ## Standard input and the entry point -/

/-- The loop of `actionProcessStdinReplace` over the lines still to scan. -/
def stdinLoop (cb : Collaborators) (opts : Options) :
    World → List Changeset → List String → World
  | w, _, [] => w
  | w, changesets, line :: rest =>
    let res := applyChangesetsToLine cb opts line changesets
    let w' := if res.skipLine = true then w
      else { w with stdout := w.stdout ++ res.line ++ "\n" }
    stdinLoop cb opts w' res.changesets rest

/-- The function `actionProcessStdinReplace` of `main.go`. -/
def actionProcessStdinReplace (cb : Collaborators) (opts : Options) (w : World)
    (changesets : List Changeset) : Int × World :=
  (0, stdinLoop cb opts { w with stdin := [] } changesets w.stdin)

/-- The function `actionProcessStdinTemplate` of `main.go`. -/
def actionProcessStdinTemplate (lib : Library) (w : World) (changesets : List Changeset) :
    Exec ((Int × Option Error) × World) :=
  let buffer := w.stdin.foldl (fun buffer line => buffer ++ (line ++ "\n")) ""
  let w := { w with stdin := [] }
  match ParseContentAsTemplate lib w buffer changesets with
  | .panic err => .panic err
  | .ret (_, some err) => .ret ((1, some err), w)
  | .ret (content, none) => .ret ((0, none), { w with stdout := w.stdout ++ content })

/-- The function `ReplaceMain` of `main.go` from the options and arguments
that `argparser.Parse()` returns. The error of `Parse` is overwritten by the
one of `handleSpecialCliOptions` before it is looked at. -/
def ReplaceMain (cb : Collaborators) (lib : Library) (schedule : Schedule) (opts : Options)
    (w : World) (args : List String) : Exec ((Int × Option Error) × World) :=
  let cli := handleSpecialCliOptions lib opts w args
  match cli.err with
  | some err => .ret ((1, some err), cli.world)
  | none =>
    if cli.shouldExit = true then .ret ((0, none), cli.world)
    else
      match buildChangesets lib cli.opts cli.world with
      | .panic err => .panic err
      | .ret (.error err, w1) => .ret ((1, some err), w1)
      | .ret (.ok changesets, w1) =>
        match buildFileitems lib cli.opts w1 args with
        | .panic err => .panic err
        | .ret fileitems =>
          if cli.opts.Stdin = true then
            if cli.opts.ModeIsTemplate = true then
              actionProcessStdinTemplate lib w1 changesets
            else
              let out := actionProcessStdinReplace cb cli.opts w1 changesets
              .ret ((out.1, none), out.2)
          else
            actionProcessFiles cb lib cli.opts schedule w1 changesets fileitems

/-- The function applied to `line` by one turn of the loop of
`applyChangesetsToLine` when the dedup branch is not taken (`main.go`, lines
169-190). -/
def ruleTurn (cb : Collaborators) (opts : Options) (line : String)
    (changeset : Changeset) : String :=
  if cb.SearchMatch opts line changeset = true then rewriteLine cb opts line changeset
  else line

/-- The logical lines that successive `Readln` calls return with a nil error:
fragments are joined while `isPrefix` is set, and fragments that are followed
by the final error without a closing fragment are lost with it. -/
def logicalLinesFrom : List (String × Bool) → String → List String
  | [], _ => []
  | (line, isPrefix) :: rest, ln =>
    if isPrefix = true then logicalLinesFrom rest (ln ++ line)
    else (ln ++ line) :: logicalLinesFrom rest ""

/-- The logical lines of a reader. -/
def logicalLines (r : Reader) : List String := logicalLinesFrom r.chunks ""

/-- The successive results of `applyChangesetsToLine` on the lines of a file,
each call working on the rule list as the call before left it. -/
def lineReports (cb : Collaborators) (opts : Options) :
    List String → List Changeset → List LineResult
  | [], _ => []
  | line :: rest, changesets =>
    applyChangesetsToLine cb opts line changesets
      :: lineReports cb opts rest (applyChangesetsToLine cb opts line changesets).changesets

/-- The conditions under which no task of the dispatcher panics: a write
cannot fail (dry run, or `os.WriteFile` succeeds whatever the path and the
content), and in template mode every entry of the environment has its `=`. -/
def NoPanic (opts : Options) (w : World) : Prop :=
  (opts.DryRun = true ∨ ∀ path content, w.WriteFile path content = none) ∧
  (opts.ModeIsTemplate = true → ∀ e ∈ w.Environ, (splitFirst '=' e.data).isSome = true)

/-- What a call returned, if it did. -/
def Exec.value? {α : Type} : Exec α → Option α
  | .ret a => some a
  | .panic _ => none

/-- The panic of a call, if it panicked. -/
def Exec.panic? {α : Type} : Exec α → Option Error
  | .ret _ => none
  | .panic err => some err

/-! ## The wording of the claims -/

/-- One rule's turn in substring-replace mode without dedup policy, in the
words of C1: a rule whose pattern matches the current line replaces it by
`ReplaceText(line, rule)`, every other rule leaves it as is. -/
def replaceTurn (cb : Collaborators) (opts : Options) (line : String)
    (rule : Changeset) : String :=
  if cb.SearchMatch opts line rule = true then cb.ReplaceText opts line rule else line

/-- One rule's turn in the whole-line modes with backreferences disabled, in
the words of C4: a rule whose pattern matches the current line replaces the
whole line by its `Replace` string. -/
def wholeLineTurn (cb : Collaborators) (opts : Options) (line : String)
    (rule : Changeset) : String :=
  if cb.SearchMatch opts line rule = true then rule.Replace else line

/-! ## Concrete values of the scenarios -/

/-- A `HandleLineInFile` that reports no change; it is not called outside
`lineinfile` mode. -/
def noLineInFile : Options → List Changeset → String → String × Bool :=
  fun _ _ buffer => (buffer, false)

/-- Template expansion for a replacement without `$`: the template itself. -/
def noExpand : String → String → String := fun template _ => template

/-- The collaborators of the scenarios. -/
def scenarioCollaborators : Collaborators := specCollaborators noLineInFile

/-- The options of a run in `replace` mode with everything else at its
default. -/
def replaceOptions : Options := { ModeIsReplaceMatch := true }

/-- The rule `foo -> baz` of scenarios A and B. -/
def fooBaz : Changeset := literalRule "foo" "baz" noExpand

/-- The rule `^#.* -> REMOVED` of scenario C, as `--regex` compiles it. -/
def hashRemoved : Changeset := ⟨"^#.*", hashLineRegexp noExpand, "REMOVED", false⟩

/-- The rule `foo -> baz` once it has matched in the file. -/
def fooBazFound : Changeset := { fooBaz with MatchFound := true }

/-- The rule `foo -> bar`. -/
def fooBar : Changeset := literalRule "foo" "bar" noExpand

/-- The rule `xfoo -> y`. -/
def xfooY : Changeset := literalRule "xfoo" "y" noExpand

/-- The options of scenario B: `replace` mode with `--once=unique`. -/
def uniqueOptions : Options := { ModeIsReplaceMatch := true, Once := "unique" }

/-- The options of `replace` mode with `--once=keep`. -/
def keepOptions : Options := { ModeIsReplaceMatch := true, Once := "keep" }

/-- The options of scenario C: `--mode=line --regex`. -/
def lineOptions : Options := { Mode := "line", ModeIsReplaceLine := true, Regex := true }

/-- A world with the given files, in which every file can be opened and read,
the paths of `failing` cannot be written, and `Walk` finds the files of
`tree` whatever the root. -/
def worldOfFiles (files : List (String × Reader)) (failing : List String)
    (tree : List WalkEntry) : World where
  Open := fun path =>
    match files.lookup path with
    | some r => .ok r
    | none => .error ("open " ++ path ++ ": no such file or directory")
  ReadFile := fun path =>
    match files.lookup path with
    | some r => .ok ((logicalLines r).foldl (fun content line => content ++ line ++ "\n") "")
    | none => .error ("open " ++ path ++ ": no such file or directory")
  WriteFile := fun path _ =>
    if failing.elem path = true then some ("open " ++ path ++ ": permission denied") else none
  Walk := fun _ => .ok tree
  Environ := ["HOME=/root"]
  stdin := []
  disk := []
  stdout := ""
  stderr := ""

/-- A library for runs whose search terms are plain words: quoting leaves such
a term as it is, and the compiled pattern matches its occurrences. Templates
are not parsed. -/
def plainLibrary : Library where
  QuoteMeta := fun term => term
  MustCompile := fun regex => .ok (literalRegexp regex noExpand)
  MustCompilePOSIX := fun regex => .ok (literalRegexp regex noExpand)
  Match := fun _ _ => true
  Parse := fun _ => .error "template: not parsed"
  Help := ""
  CommandName := "go-replace"

/-- The schedule that runs the tasks in the order of the file list. -/
def inOrder : Schedule := fun fileitems => fileitems

/-- The schedule that runs the tasks in the reverse order. -/
def reversed : Schedule := fun fileitems => fileitems.reverse

/-- Two files `a.txt` and `b.txt`, each with the one line `foo`. -/
def twoFoo : World :=
  worldOfFiles [("a.txt", readerOfLines ["foo"]), ("b.txt", readerOfLines ["foo"])] [] []

/-- The file items of `a.txt` and `b.txt`. -/
def fileA : Fileitem := ⟨"a.txt", "a.txt"⟩

/-- The file item of `b.txt`. -/
def fileB : Fileitem := ⟨"b.txt", "b.txt"⟩

/-- A file `a.txt` whose first line is `foo` and whose read fails after it. -/
def brokenRead : World :=
  worldOfFiles [("a.txt", ⟨[("foo", false)], "read a.txt: input/output error"⟩)] [] []

/-- A file `a.txt` with the one line `foo` that cannot be written, next to a
file `b.txt` that can. -/
def readOnlyA : World :=
  worldOfFiles [("a.txt", readerOfLines ["foo"]), ("b.txt", readerOfLines ["foo"])]
    ["a.txt"] []

/-- A directory `dir` with the files `a.txt` and `b.txt`, each with the one
line `foo`. -/
def dirWorld : World :=
  worldOfFiles
    [("dir/a.txt", readerOfLines ["foo"]), ("dir/b.txt", readerOfLines ["foo"])] []
    [⟨"dir/a.txt", "a.txt", ["dir"]⟩, ⟨"dir/b.txt", "b.txt", ["dir"]⟩]

/-- The options of `--output out.txt --path dir -s foo -r baz`. -/
def outputPathOptions : Options :=
  { Output := "out.txt", Path := "dir", Search := ["foo"], Replace := ["baz"] }

/-- The options of `--threads 2`. -/
def twoThreads : Options := { ThreadCount := 2 }

/-! # Theorems -/

/-! ## The line processor without dedup policy -/

theorem ruleTurn_replace (cb : Collaborators) (opts : Options)
    (hLine : opts.ModeIsReplaceLine = false) (hLif : opts.ModeIsLineInFile = false) :
    ruleTurn cb opts = replaceTurn cb opts := by
  funext line c
  simp [ruleTurn, replaceTurn, rewriteLine, hLine, hLif]

theorem ruleTurn_wholeLine (cb : Collaborators) (opts : Options)
    (hMode : opts.ModeIsReplaceLine = true ∨ opts.ModeIsLineInFile = true)
    (hBackref : opts.RegexBackref = false) :
    ruleTurn cb opts = wholeLineTurn cb opts := by
  funext line c
  simp [ruleTurn, wholeLineTurn, rewriteLine, hMode, hBackref]

theorem loop_noOnce_skip (cb : Collaborators) (opts : Options) (hOnce : opts.Once = "")
    (rules : List Changeset) :
    ∀ (line : String) (changed : Bool),
      (applyChangesetsLoop cb opts line changed rules).skipLine = false := by
  induction rules with
  | nil => intro line changed; rfl
  | cons c rest ih =>
    intro line changed
    simp only [applyChangesetsLoop, hOnce, ne_eq, not_true_eq_false, false_and, if_false]
    split <;> simp [ih]

theorem loop_noOnce_line (cb : Collaborators) (opts : Options) (hOnce : opts.Once = "")
    (rules : List Changeset) :
    ∀ (line : String) (changed : Bool),
      (applyChangesetsLoop cb opts line changed rules).line
        = rules.foldl (ruleTurn cb opts) line := by
  induction rules with
  | nil => intro line changed; rfl
  | cons c rest ih =>
    intro line changed
    simp only [applyChangesetsLoop, hOnce, ne_eq, not_true_eq_false, false_and, if_false,
      List.foldl_cons, ruleTurn]
    split <;> simp [ih, *]

theorem loop_noOnce_changed (cb : Collaborators) (opts : Options) (hOnce : opts.Once = "")
    (rules : List Changeset) :
    ∀ (line : String) (changed : Bool),
      ((applyChangesetsLoop cb opts line changed rules).changed = true ↔
        changed = true ∨ ∃ k, ∃ h : k < rules.length,
          cb.SearchMatch opts ((rules.take k).foldl (ruleTurn cb opts) line)
            (rules.get ⟨k, h⟩) = true) := by
  induction rules with
  | nil => intro line changed; simp [applyChangesetsLoop]
  | cons c rest ih =>
    intro line changed
    simp only [applyChangesetsLoop, hOnce, ne_eq, not_true_eq_false, false_and, if_false]
    by_cases hm : cb.SearchMatch opts line c = true
    · rw [if_pos hm]
      show (applyChangesetsLoop cb opts (rewriteLine cb opts line c) true rest).changed = true ↔ _
      rw [ih]
      simp only [true_or, true_iff]
      exact Or.inr ⟨0, by simp, by simpa using hm⟩
    · rw [if_neg hm]
      show (applyChangesetsLoop cb opts line changed rest).changed = true ↔ _
      rw [ih]
      constructor
      · rintro (h | ⟨k, hk, h⟩)
        · exact Or.inl h
        · refine Or.inr ⟨k + 1, by simpa using hk, ?_⟩
          simpa [ruleTurn, hm] using h
      · rintro (h | ⟨k, hk, h⟩)
        · exact Or.inl h
        · cases k with
          | zero => simp at h; exact absurd h hm
          | succ k =>
            refine Or.inr ⟨k, by simpa using hk, ?_⟩
            simpa [ruleTurn, hm] using h

/-- The line at the turn of rule `k + 1` is what the turn of rule `k` makes of
the line at the turn of rule `k`. -/
theorem foldl_take_succ {α β : Type} (f : β → α → β) (b : β) (l : List α) (k : Nat)
    (h : k < l.length) :
    (l.take (k + 1)).foldl f b = f ((l.take k).foldl f b) (l.get ⟨k, h⟩) := by
  rw [List.take_succ, List.foldl_append, List.getElem?_eq_getElem h]
  rfl

/-- Once a rule has matched at turn `k`, and no later rule matches at its
turn, the line keeps the value the turn of rule `k` gave it. -/
theorem foldl_last_turn {α β : Type} (f : β → α → β) (b : β) (l : List α) (k : Nat)
    (hk : k < l.length)
    (hLater : ∀ j, ∀ h : j < l.length, k < j →
      f ((l.take j).foldl f b) (l.get ⟨j, h⟩) = (l.take j).foldl f b) :
    l.foldl f b = f ((l.take k).foldl f b) (l.get ⟨k, hk⟩) := by
  have key : ∀ n, k + 1 + n ≤ l.length →
      (l.take (k + 1 + n)).foldl f b = f ((l.take k).foldl f b) (l.get ⟨k, hk⟩) := by
    intro n
    induction n with
    | zero => intro _; exact foldl_take_succ f b l k hk
    | succ n ih =>
      intro hn
      have hjn : k + 1 + n < l.length := by omega
      rw [show k + 1 + (n + 1) = (k + 1 + n) + 1 by omega, foldl_take_succ f b l _ hjn,
        hLater _ hjn (by omega), ih (by omega)]
  have := key (l.length - (k + 1)) (by omega)
  rwa [show k + 1 + (l.length - (k + 1)) = l.length by omega, List.take_length] at this

/-- When no rule matches at its turn, the line stays what it was. -/
theorem foldl_no_turn {α β : Type} (f : β → α → β) (b : β) (l : List α)
    (hNone : ∀ j, ∀ h : j < l.length,
      f ((l.take j).foldl f b) (l.get ⟨j, h⟩) = (l.take j).foldl f b) :
    l.foldl f b = b := by
  have key : ∀ n, n ≤ l.length → (l.take n).foldl f b = b := by
    intro n
    induction n with
    | zero => intro _; simp
    | succ n ih =>
      intro hn
      rw [foldl_take_succ f b l n (by omega), hNone n (by omega), ih (by omega)]
  have := key l.length le_rfl
  rwa [List.take_length] at this

/-! ## The dedup policies -/

theorem loop_keep_noop (cb : Collaborators) (opts : Options) (hOnce : opts.Once = "keep")
    (r : Changeset) (hr : r.MatchFound = true) (post : List Changeset) (pre : List Changeset) :
    ∀ (line : String) (changed : Bool),
      applyChangesetsLoop cb opts line changed (pre ++ r :: post) =
        ⟨(applyChangesetsLoop cb opts line changed (pre ++ post)).line,
         (applyChangesetsLoop cb opts line changed (pre ++ post)).changed,
         (applyChangesetsLoop cb opts line changed (pre ++ post)).skipLine,
         (applyChangesetsLoop cb opts line changed (pre ++ post)).changesets.take pre.length
           ++ r :: (applyChangesetsLoop cb opts line changed (pre ++ post)).changesets.drop
             pre.length⟩ := by
  induction pre with
  | nil =>
    intro line changed
    simp [applyChangesetsLoop, hOnce, hr]
  | cons c pre ih =>
    intro line changed
    rw [List.cons_append, List.cons_append]
    simp only [applyChangesetsLoop, hOnce, List.length_cons]
    split
    · rw [ih]; simp
    · split
      · rw [ih]; simp
      · rw [ih]; simp

/-- Under policy `unique`, a rule whose flag is set drops the line when the
line, as the rules before it leave it, matches its pattern. -/
theorem loop_unique_drop (cb : Collaborators) (opts : Options) (hOnce : opts.Once = "unique")
    (r : Changeset) (hr : r.MatchFound = true) (post : List Changeset) (pre : List Changeset) :
    ∀ (line : String) (changed : Bool),
      cb.SearchMatch opts (applyChangesetsLoop cb opts line changed pre).line r = true →
      (applyChangesetsLoop cb opts line changed (pre ++ r :: post)).skipLine = true ∧
      (applyChangesetsLoop cb opts line changed (pre ++ r :: post)).changed = true := by
  induction pre with
  | nil =>
    intro line changed hm
    simp only [applyChangesetsLoop] at hm
    simp [applyChangesetsLoop, hOnce, hr, hm]
  | cons c pre ih =>
    intro line changed
    rw [List.cons_append]
    simp only [applyChangesetsLoop, hOnce]
    split
    · split
      · intro _; exact ⟨rfl, rfl⟩
      · intro hm; exact ih _ _ hm
    · split
      · intro hm; exact ih _ _ hm
      · intro hm; exact ih _ _ hm

/-! ## The line pass reads every logical line -/

theorem ReadlnLoop_spec (final : Error) (chunks : List (String × Bool)) :
    ∀ ln : String,
      ((ReadlnLoop final chunks ln).1.2 ≠ none → logicalLinesFrom chunks ln = []) ∧
      ((ReadlnLoop final chunks ln).1.2 = none →
        logicalLinesFrom chunks ln =
          (ReadlnLoop final chunks ln).1.1 :: logicalLinesFrom (ReadlnLoop final chunks ln).2 ""
        ∧ (ReadlnLoop final chunks ln).2.length < chunks.length) := by
  induction chunks with
  | nil => intro ln; simp [ReadlnLoop, logicalLinesFrom]
  | cons c rest ih =>
    intro ln
    obtain ⟨line, isPrefix⟩ := c
    cases isPrefix with
    | true =>
      simp only [ReadlnLoop, logicalLinesFrom, if_true]
      refine ⟨(ih _).1, fun h => ⟨((ih _).2 h).1, ?_⟩⟩
      have := ((ih (ln ++ line)).2 h).2
      simp only [List.length_cons]
      omega
    | false => simp [ReadlnLoop, logicalLinesFrom]

theorem readLoop_eq_foldl (cb : Collaborators) (opts : Options) (final : Error) (fuel : Nat) :
    ∀ (chunks : List (String × Bool)) (st : PassState), chunks.length < fuel →
      readLoop cb opts fuel (Readln ⟨chunks, final⟩).2 (Readln ⟨chunks, final⟩).1.1
          (Readln ⟨chunks, final⟩).1.2 st
        = (logicalLines ⟨chunks, final⟩).foldl (passLine cb opts) st := by
  induction fuel with
  | zero => intro chunks st h; omega
  | succ fuel ih =>
    intro chunks st hfuel
    have hspec := ReadlnLoop_spec final chunks ""
    cases he : (ReadlnLoop final chunks "").1.2 with
    | some e =>
      have h1 := hspec.1 (by simp [he])
      simp [readLoop, Readln, he, logicalLines, h1]
    | none =>
      obtain ⟨h1, h2⟩ := hspec.2 he
      have := ih (ReadlnLoop final chunks "").2 (passLine cb opts st (ReadlnLoop final chunks "").1.1)
        (by omega)
      simp only [readLoop, Readln, he, logicalLines, h1, List.foldl_cons]
      simpa [Readln, logicalLines] using this

theorem linePass_eq_foldl (cb : Collaborators) (opts : Options) (r : Reader)
    (changesets : List Changeset) :
    linePass cb opts r changesets
      = (logicalLines r).foldl (passLine cb opts) ⟨"", false, changesets⟩ := by
  obtain ⟨chunks, final⟩ := r
  exact readLoop_eq_foldl cb opts final (chunks.length + 1) chunks _ (Nat.lt_succ_self _)

theorem logicalLines_readerOfLines (lines : List String) :
    logicalLines (readerOfLines lines) = lines := by
  induction lines with
  | nil => rfl
  | cons l ls ih =>
    simp only [logicalLines, readerOfLines, List.map_cons, logicalLinesFrom] at ih ⊢
    simp [ih]

theorem linePass_append_line (cb : Collaborators) (opts : Options) (lines : List String)
    (line : String) (changesets : List Changeset) :
    linePass cb opts (readerOfLines (lines ++ [line])) changesets
      = passLine cb opts (linePass cb opts (readerOfLines lines) changesets) line := by
  simp [linePass_eq_foldl, logicalLines_readerOfLines]

theorem loop_length (cb : Collaborators) (opts : Options) (rules : List Changeset) :
    ∀ (line : String) (changed : Bool),
      (applyChangesetsLoop cb opts line changed rules).changesets.length = rules.length := by
  induction rules with
  | nil => intro line changed; rfl
  | cons c rest ih =>
    intro line changed
    simp only [applyChangesetsLoop]
    split
    · split
      · rfl
      · simp [ih]
    · split <;> simp [ih]

/-! ## The claims on the line processor -/

/-- C1: in substring-replace mode (`ModeIsReplaceLine` and `ModeIsLineInFile`
both off) with no dedup policy (`opts.Once` empty), for every line and every
rule list, whatever the incoming `MatchFound` flags, `applyChangesetsToLine`
returns drop = false and the line obtained by folding `replaceTurn` over the
rules in order, and changed is true exactly when some rule matched the line as
it was at that rule's turn. With the single rule `foo -> baz` the file of lines
`foo`, `bar`, `foo` gives the buffer `baz`, `bar`, `baz`. -/
theorem applyChangesetsToLine_replace_fold (cb : Collaborators) (opts : Options)
    (hOnce : opts.Once = "") (hLine : opts.ModeIsReplaceLine = false)
    (hLif : opts.ModeIsLineInFile = false) (line : String) (rules : List Changeset) :
    (applyChangesetsToLine cb opts line rules).skipLine = false ∧
    (applyChangesetsToLine cb opts line rules).line
      = rules.foldl (replaceTurn cb opts) line ∧
    ((applyChangesetsToLine cb opts line rules).changed = true ↔
      ∃ k, ∃ h : k < rules.length,
        cb.SearchMatch opts ((rules.take k).foldl (replaceTurn cb opts) line)
          (rules.get ⟨k, h⟩) = true) ∧
    (linePass scenarioCollaborators replaceOptions (readerOfLines ["foo", "bar", "foo"])
      [fooBaz]).buffer = "baz\nbar\nbaz\n" := by
  refine ⟨loop_noOnce_skip cb opts hOnce rules line false, ?_, ?_, by decide⟩
  · rw [← ruleTurn_replace cb opts hLine hLif]
    exact loop_noOnce_line cb opts hOnce rules line false
  · rw [← ruleTurn_replace cb opts hLine hLif]
    simpa using loop_noOnce_changed cb opts hOnce rules line false

/-- C1 at the line `a foo, a bar, a foo` with the rules `foo -> baz` and
`xfoo -> y`. -/
theorem applyChangesetsToLine_replace_fold_witness :
    replaceOptions.Once = "" ∧
    (applyChangesetsToLine scenarioCollaborators replaceOptions "a foo, a bar, a foo"
      [fooBaz, xfooY]).line = "a baz, a bar, a baz" :=
  ⟨rfl, (applyChangesetsToLine_replace_fold scenarioCollaborators replaceOptions rfl rfl rfl
    "a foo, a bar, a foo" [fooBaz, xfooY]).2.1.trans (by decide)⟩

/-- C2 as stated fails: under `unique`, with the rules `xfoo -> y` and
`foo -> bar`, the line `foo` sets the flag of `foo -> bar`; the next line `xfoo`
matches the pattern of `foo -> bar`, yet it is not dropped: `xfoo -> y` rewrites
it to `y` first, and `y` is written to the buffer. -/
theorem unique_drop_counterexample :
    (linePass scenarioCollaborators uniqueOptions (readerOfLines ["foo"])
      [xfooY, fooBar]).changesets.map (fun c => c.MatchFound) = [false, true] ∧
    scenarioCollaborators.SearchMatch uniqueOptions "xfoo" fooBar = true ∧
    (applyChangesetsToLine scenarioCollaborators uniqueOptions "xfoo"
      (linePass scenarioCollaborators uniqueOptions (readerOfLines ["foo"])
        [xfooY, fooBar]).changesets).skipLine = false ∧
    (linePass scenarioCollaborators uniqueOptions (readerOfLines ["foo", "xfoo"])
      [xfooY, fooBar]).buffer = "bar\ny\n" := by
  decide

/-- C2, amended: under dedup policy `unique`, for every rule list, every rule
`r` whose flag is set after the earlier lines of the file, and every further
line: if the line, as the rules before `r` leave it, matches the pattern of
`r`, then `applyChangesetsToLine` returns drop = true and changed = true, and
the pass over the earlier lines and this one leaves the buffer of the pass over
the earlier lines. With the single rule `foo -> baz` the file of lines `foo`,
`bar`, `foo` gives the buffer `baz`, `bar`. -/
theorem unique_drops_line_matching_at_turn (cb : Collaborators) (opts : Options)
    (hOnce : opts.Once = "unique") (rules : List Changeset) (earlier : List String)
    (line : String) (pre : List Changeset) (r : Changeset) (post : List Changeset)
    (hState : (linePass cb opts (readerOfLines earlier) rules).changesets = pre ++ r :: post)
    (hFound : r.MatchFound = true)
    (hMatch : cb.SearchMatch opts (applyChangesetsToLine cb opts line pre).line r = true) :
    (applyChangesetsToLine cb opts line (pre ++ r :: post)).skipLine = true ∧
    (applyChangesetsToLine cb opts line (pre ++ r :: post)).changed = true ∧
    (linePass cb opts (readerOfLines (earlier ++ [line])) rules).buffer
      = (linePass cb opts (readerOfLines earlier) rules).buffer ∧
    (linePass scenarioCollaborators uniqueOptions (readerOfLines ["foo", "bar", "foo"])
      [fooBaz]).buffer = "baz\nbar\n" := by
  have h := loop_unique_drop cb opts hOnce r hFound post pre line false hMatch
  refine ⟨h.1, h.2, ?_, by decide⟩
  rw [linePass_append_line]
  simp only [passLine, hState]
  exact if_pos h.1

/-- The amended C2 at scenario B: after the lines `foo` and `bar` the flag of
`foo -> baz` is set, and the third line `foo` is dropped. -/
theorem unique_drops_line_matching_at_turn_witness :
    uniqueOptions.Once = "unique" ∧
    (applyChangesetsToLine scenarioCollaborators uniqueOptions "foo"
      ([] ++ fooBazFound :: [])).skipLine = true ∧
    (linePass scenarioCollaborators uniqueOptions (readerOfLines (["foo", "bar"] ++ ["foo"]))
      [fooBaz]).buffer
      = (linePass scenarioCollaborators uniqueOptions (readerOfLines ["foo", "bar"])
        [fooBaz]).buffer :=
  have h := unique_drops_line_matching_at_turn scenarioCollaborators uniqueOptions rfl [fooBaz]
    ["foo", "bar"] "foo" [] fooBazFound [] rfl rfl rfl
  ⟨rfl, h.1, h.2.2.1⟩

/-- C3: under dedup policy `keep`, for every line and every rule list in which
rule `i` (the rule `r` after the `pre.length` rules of `pre`) has its flag set,
rule `i` is a no-op: `applyChangesetsToLine` returns the same line, changed and
drop as on the rule list without rule `i`, the rule list it leaves is, rule `i`
taken out, the one it leaves there, and rule `i` is left as it was, flag
set. -/
theorem keep_rule_is_noop (cb : Collaborators) (opts : Options) (hOnce : opts.Once = "keep")
    (line : String) (pre : List Changeset) (r : Changeset) (post : List Changeset)
    (hFound : r.MatchFound = true) :
    (applyChangesetsToLine cb opts line (pre ++ r :: post)).line
      = (applyChangesetsToLine cb opts line (pre ++ post)).line ∧
    (applyChangesetsToLine cb opts line (pre ++ r :: post)).changed
      = (applyChangesetsToLine cb opts line (pre ++ post)).changed ∧
    (applyChangesetsToLine cb opts line (pre ++ r :: post)).skipLine
      = (applyChangesetsToLine cb opts line (pre ++ post)).skipLine ∧
    (applyChangesetsToLine cb opts line (pre ++ r :: post)).changesets.eraseIdx pre.length
      = (applyChangesetsToLine cb opts line (pre ++ post)).changesets ∧
    (applyChangesetsToLine cb opts line (pre ++ r :: post)).changesets.get? pre.length
      = some r ∧
    ((applyChangesetsToLine cb opts line (pre ++ r :: post)).changesets.get? pre.length).map
      (fun c => c.MatchFound) = some true := by
  have h := loop_keep_noop cb opts hOnce r hFound post pre line false
  have hlen := loop_length cb opts (pre ++ post) line false
  have hpre : (List.take pre.length
      (applyChangesetsLoop cb opts line false (pre ++ post)).changesets).length = pre.length := by
    rw [List.length_take, hlen]; simp
  unfold applyChangesetsToLine
  rw [h]
  have hget : (List.take pre.length
      (applyChangesetsLoop cb opts line false (pre ++ post)).changesets
      ++ r :: List.drop pre.length
        (applyChangesetsLoop cb opts line false (pre ++ post)).changesets).get? pre.length
      = some r := by
    rw [List.get?_eq_getElem?, List.getElem?_append_right (by omega), hpre]
    simp
  refine ⟨rfl, rfl, rfl, ?_, hget, ?_⟩
  · simp only
    rw [List.eraseIdx_append_of_length_le (by omega), hpre]
    simp
  · simp only
    rw [hget]
    simp [hFound]

/-- C3 at the line `foo` with the flagged rule `foo -> baz` before the rule
`foo -> bar`: only `foo -> bar` rewrites the line. -/
theorem keep_rule_is_noop_witness :
    keepOptions.Once = "keep" ∧
    (applyChangesetsToLine scenarioCollaborators keepOptions "foo"
      ([] ++ fooBazFound :: [fooBar])).line = "bar" :=
  ⟨rfl, (keep_rule_is_noop scenarioCollaborators keepOptions rfl "foo" [] fooBazFound [fooBar]
    rfl).1.trans (by decide)⟩

/-- C4: in the whole-line modes (`line`, `lineinfile`) with backreferences
disabled and no dedup policy, for every line and every rule list,
`applyChangesetsToLine` never drops the line; changed is true exactly when some
rule matched the line as it was at that rule's turn; when no rule matched at
its turn the original line is returned; and otherwise the returned line is
verbatim the `Replace` string of the last rule that matched at its turn. With
the regex rule `^#.* -> REMOVED` the line `# comment` becomes `REMOVED`. -/
theorem applyChangesetsToLine_whole_line (cb : Collaborators) (opts : Options)
    (hOnce : opts.Once = "")
    (hMode : opts.ModeIsReplaceLine = true ∨ opts.ModeIsLineInFile = true)
    (hBackref : opts.RegexBackref = false) (line : String) (rules : List Changeset) :
    (applyChangesetsToLine cb opts line rules).skipLine = false ∧
    ((applyChangesetsToLine cb opts line rules).changed = true ↔
      ∃ k, ∃ h : k < rules.length,
        cb.SearchMatch opts ((rules.take k).foldl (wholeLineTurn cb opts) line)
          (rules.get ⟨k, h⟩) = true) ∧
    ((∀ k, ∀ h : k < rules.length,
        cb.SearchMatch opts ((rules.take k).foldl (wholeLineTurn cb opts) line)
          (rules.get ⟨k, h⟩) = false) →
      (applyChangesetsToLine cb opts line rules).line = line ∧
      (applyChangesetsToLine cb opts line rules).changed = false) ∧
    (∀ k, ∀ h : k < rules.length,
      cb.SearchMatch opts ((rules.take k).foldl (wholeLineTurn cb opts) line)
        (rules.get ⟨k, h⟩) = true →
      (∀ j, ∀ h' : j < rules.length, k < j →
        cb.SearchMatch opts ((rules.take j).foldl (wholeLineTurn cb opts) line)
          (rules.get ⟨j, h'⟩) = false) →
      (applyChangesetsToLine cb opts line rules).line = (rules.get ⟨k, h⟩).Replace ∧
      (applyChangesetsToLine cb opts line rules).changed = true) ∧
    (applyChangesetsToLine scenarioCollaborators lineOptions "# comment" [hashRemoved]).line
      = "REMOVED" := by
  have hturn := ruleTurn_wholeLine cb opts hMode hBackref
  have hline : (applyChangesetsToLine cb opts line rules).line
      = rules.foldl (wholeLineTurn cb opts) line := by
    rw [← hturn]; exact loop_noOnce_line cb opts hOnce rules line false
  have hchanged : ((applyChangesetsToLine cb opts line rules).changed = true ↔
      ∃ k, ∃ h : k < rules.length,
        cb.SearchMatch opts ((rules.take k).foldl (wholeLineTurn cb opts) line)
          (rules.get ⟨k, h⟩) = true) := by
    rw [← hturn]; simpa using loop_noOnce_changed cb opts hOnce rules line false
  refine ⟨loop_noOnce_skip cb opts hOnce rules line false, hchanged, ?_, ?_, by decide⟩
  · intro hNone
    constructor
    · rw [hline]
      apply foldl_no_turn
      intro j h
      simp only [wholeLineTurn]
      rw [hNone j h]
      simp
    · cases hc : (applyChangesetsToLine cb opts line rules).changed with
      | false => rfl
      | true =>
        obtain ⟨k, h, hk⟩ := hchanged.1 hc
        rw [hNone k h] at hk
        exact absurd hk (by simp)
  · intro k h hk hLater
    constructor
    · rw [hline, foldl_last_turn (wholeLineTurn cb opts) line rules k h]
      · simp only [wholeLineTurn]
        rw [hk]
        simp
      · intro j h' hj
        simp only [wholeLineTurn]
        rw [hLater j h' hj]
        simp
    · exact hchanged.2 ⟨k, h, hk⟩

/-- C4 at the line `# comment` with the rules `foo -> baz` and
`^#.* -> REMOVED` in `line` mode: only the second rule matches. -/
theorem applyChangesetsToLine_whole_line_witness :
    lineOptions.Once = "" ∧
    (applyChangesetsToLine scenarioCollaborators lineOptions "# comment"
      [fooBaz, hashRemoved]).line = "REMOVED" :=
  ⟨rfl, ((applyChangesetsToLine_whole_line scenarioCollaborators lineOptions rfl
    (Or.inl rfl) rfl "# comment" [fooBaz, hashRemoved]).2.2.2.1 1 (by decide) (by decide)
    (by intro j h' hj; simp at h'; omega)).1⟩

/-! ## The file processing engine -/

theorem foldl_passLine_changesets (cb : Collaborators) (opts : Options) (lines : List String) :
    ∀ st st' : PassState, st.changesets = st'.changesets →
      (lines.foldl (passLine cb opts) st).changesets
        = (lines.foldl (passLine cb opts) st').changesets := by
  induction lines with
  | nil => intro st st' h; exact h
  | cons l ls ih =>
    intro st st' h
    simp only [List.foldl_cons]
    apply ih
    simp [passLine, h]

theorem foldl_passLine_write (cb : Collaborators) (opts : Options) (lines : List String) :
    ∀ st : PassState,
      ((lines.foldl (passLine cb opts) st).writeBufferToFile = true ↔
        st.writeBufferToFile = true ∨
        ∃ res ∈ lineReports cb opts lines st.changesets,
          res.changed = true ∨ res.skipLine = true) := by
  induction lines with
  | nil => intro st; simp [lineReports]
  | cons l ls ih =>
    intro st
    simp only [List.foldl_cons, lineReports, List.mem_cons, exists_eq_or_imp]
    rw [ih]
    by_cases h : (applyChangesetsToLine cb opts l st.changesets).changed = true ∨
        (applyChangesetsToLine cb opts l st.changesets).skipLine = true
    · simp [passLine, h]
    · simp [passLine, h]

/-- The flag `writeBufferToFile` at line 127 of `main.go` is set exactly under
the three conditions of a write. -/
theorem writeBufferToFile_iff (cb : Collaborators) (opts : Options) (r : Reader)
    (changesets : List Changeset) :
    (forceWriteStep opts (lineInFileStep cb opts
        (linePass cb opts r changesets))).writeBufferToFile = true ↔
      ((∃ res ∈ lineReports cb opts (logicalLines r) changesets,
          res.changed = true ∨ res.skipLine = true) ∨
        (opts.ModeIsLineInFile = true ∧
          (cb.HandleLineInFile opts (linePass cb opts r changesets).changesets
            (linePass cb opts r changesets).buffer).2 = true) ∨
        (opts.Output ≠ "" ∨ opts.OutputStripFileExt ≠ "")) := by
  have hpass : (linePass cb opts r changesets).writeBufferToFile = true ↔
      ∃ res ∈ lineReports cb opts (logicalLines r) changesets,
        res.changed = true ∨ res.skipLine = true := by
    rw [linePass_eq_foldl, foldl_passLine_write]
    simp
  rw [← hpass]
  generalize linePass cb opts r changesets = st
  by_cases hf : opts.Output ≠ "" ∨ opts.OutputStripFileExt ≠ ""
  · simp [forceWriteStep, hf]
  · simp only [forceWriteStep, if_neg hf, hf, or_false]
    by_cases hl : opts.ModeIsLineInFile = true
    · by_cases hs : (cb.HandleLineInFile opts st.changesets st.buffer).2 = true
      · simp [lineInFileStep, hl, hs]
      · simp [lineInFileStep, hl, hs]
    · simp [lineInFileStep, hl]

theorem forceWriteStep_fields (opts : Options) (st : PassState) :
    (forceWriteStep opts st).buffer = st.buffer ∧
    (forceWriteStep opts st).changesets = st.changesets := by
  unfold forceWriteStep
  split <;> simp

theorem lineInFileStep_changesets (cb : Collaborators) (opts : Options) (st : PassState) :
    (lineInFileStep cb opts st).changesets = st.changesets := by
  unfold lineInFileStep
  split
  · simp only
    split <;> rfl
  · rfl

/-- C6: once the file is open, `applyChangesetsToFile` hands its buffer to
`WriteContentToFile` if and only if at least one line was reported changed or
dropped by `applyChangesetsToLine`, or the mode is `lineinfile` and
`HandleLineInFile` reported a change, or `opts.Output` or
`opts.OutputStripFileExt` is non-empty; in every other case nothing is written,
the world is left as it was, and the report is `<path> no match` with status
true and a nil error. -/
theorem applyChangesetsToFile_write_iff (cb : Collaborators) (opts : Options) (w : World)
    (fileitem : Fileitem) (changesets : List Changeset) (r : Reader)
    (hOpen : w.Open fileitem.Path = .ok r) :
    (((∃ res ∈ lineReports cb opts (logicalLines r) changesets,
          res.changed = true ∨ res.skipLine = true) ∨
        (opts.ModeIsLineInFile = true ∧
          (cb.HandleLineInFile opts (linePass cb opts r changesets).changesets
            (linePass cb opts r changesets).buffer).2 = true) ∨
        (opts.Output ≠ "" ∨ opts.OutputStripFileExt ≠ "")) →
      applyChangesetsToFile cb opts w fileitem changesets
        = returnOfSink (linePass cb opts r changesets).changesets
            (WriteContentToFile opts w fileitem
              (lineInFileStep cb opts (linePass cb opts r changesets)).buffer)) ∧
    (¬ ((∃ res ∈ lineReports cb opts (logicalLines r) changesets,
          res.changed = true ∨ res.skipLine = true) ∨
        (opts.ModeIsLineInFile = true ∧
          (cb.HandleLineInFile opts (linePass cb opts r changesets).changesets
            (linePass cb opts r changesets).buffer).2 = true) ∨
        (opts.Output ≠ "" ∨ opts.OutputStripFileExt ≠ "")) →
      applyChangesetsToFile cb opts w fileitem changesets
        = .ret ⟨fileitem.Path ++ " no match", true, none,
            (linePass cb opts r changesets).changesets, w⟩) := by
  have hiff := writeBufferToFile_iff cb opts r changesets
  have hfields := forceWriteStep_fields opts (lineInFileStep cb opts (linePass cb opts r changesets))
  have hcs := lineInFileStep_changesets cb opts (linePass cb opts r changesets)
  constructor
  · intro hcond
    simp only [applyChangesetsToFile, hOpen, applyChangesetsToOpenFile, finishFile]
    rw [if_pos (hiff.2 hcond), hfields.1, hfields.2, hcs]
  · intro hcond
    simp only [applyChangesetsToFile, hOpen, applyChangesetsToOpenFile, finishFile]
    rw [if_neg (fun h => hcond (hiff.1 h)), hfields.2, hcs]

/-- C6 at the file `a.txt` with the one line `foo` and the rule `foo -> baz`:
the line is reported changed and the buffer goes to `WriteContentToFile`. -/
theorem applyChangesetsToFile_write_iff_witness :
    twoFoo.Open fileA.Path = .ok (readerOfLines ["foo"]) ∧
    applyChangesetsToFile scenarioCollaborators replaceOptions twoFoo fileA [fooBaz]
      = returnOfSink (linePass scenarioCollaborators replaceOptions (readerOfLines ["foo"])
          [fooBaz]).changesets
          (WriteContentToFile replaceOptions twoFoo fileA
            (lineInFileStep scenarioCollaborators replaceOptions
              (linePass scenarioCollaborators replaceOptions (readerOfLines ["foo"])
                [fooBaz])).buffer) :=
  ⟨rfl, (applyChangesetsToFile_write_iff scenarioCollaborators replaceOptions twoFoo fileA
    [fooBaz] (readerOfLines ["foo"]) rfl).1
    (Or.inl ⟨_, List.mem_cons_self _ _, Or.inl (by decide)⟩)⟩

/-! ## The dispatcher -/

theorem WriteContentToFile_ret (opts : Options) (w : World) (fileitem : Fileitem)
    (content : String)
    (h : opts.DryRun = true ∨ ∀ path content, w.WriteFile path content = none) :
    ∃ out w', WriteContentToFile opts w fileitem content = .ret (out, w') ∧
      w'.WriteFile = w.WriteFile ∧ w'.Environ = w.Environ := by
  unfold WriteContentToFile
  by_cases hd : opts.DryRun = true
  · exact ⟨_, _, by rw [if_pos hd], rfl, rfl⟩
  · rcases h with h | h
    · exact absurd h hd
    · rw [if_neg hd, h]
      exact ⟨_, _, rfl, rfl, rfl⟩

theorem returnOfSink_ret (opts : Options) (w : World) (fileitem : Fileitem)
    (content : String) (changesets : List Changeset)
    (h : opts.DryRun = true ∨ ∀ path content, w.WriteFile path content = none) :
    ∃ r, returnOfSink changesets (WriteContentToFile opts w fileitem content) = .ret r ∧
      r.world.WriteFile = w.WriteFile ∧ r.world.Environ = w.Environ := by
  obtain ⟨out, w', hw, h1, h2⟩ := WriteContentToFile_ret opts w fileitem content h
  rw [hw]
  exact ⟨_, rfl, h1, h2⟩

theorem applyChangesetsToFile_ret (cb : Collaborators) (opts : Options) (w : World)
    (fileitem : Fileitem) (changesets : List Changeset)
    (h : opts.DryRun = true ∨ ∀ path content, w.WriteFile path content = none) :
    ∃ r, applyChangesetsToFile cb opts w fileitem changesets = .ret r ∧
      r.world.WriteFile = w.WriteFile ∧ r.world.Environ = w.Environ := by
  unfold applyChangesetsToFile
  split
  · exact ⟨_, rfl, rfl, rfl⟩
  · unfold applyChangesetsToOpenFile finishFile
    split
    · exact returnOfSink_ret opts w fileitem _ _ h
    · exact ⟨_, rfl, rfl, rfl⟩

theorem environLoop_ret (env : List String)
    (h : ∀ e ∈ env, (splitFirst '=' e.data).isSome = true) :
    ∀ m, ∃ m', environLoop env m = .ret m' := by
  induction env with
  | nil => intro m; exact ⟨m, rfl⟩
  | cons e rest ih =>
    intro m
    have he := h e (List.mem_cons_self _ _)
    unfold environLoop
    cases hs : splitFirst '=' e.data with
    | none => rw [hs] at he; simp at he
    | some p =>
      obtain ⟨k, v⟩ := p
      exact ih (fun e' he' => h e' (List.mem_cons_of_mem _ he')) _

theorem ParseContentAsTemplate_ret (lib : Library) (w : World) (templateContent : String)
    (changesets : List Changeset)
    (h : ∀ e ∈ w.Environ, (splitFirst '=' e.data).isSome = true) :
    ∃ out, ParseContentAsTemplate lib w templateContent changesets = .ret out := by
  obtain ⟨env, henv⟩ := environLoop_ret w.Environ h (fun _ => none)
  unfold ParseContentAsTemplate generateTemplateData
  simp only [henv]
  cases lib.Parse templateContent with
  | error err => exact ⟨_, rfl⟩
  | ok tmpl =>
    simp only
    split <;> exact ⟨_, rfl⟩

theorem applyTemplateToFile_ret (lib : Library) (opts : Options) (w : World)
    (fileitem : Fileitem) (changesets : List Changeset)
    (h : opts.DryRun = true ∨ ∀ path content, w.WriteFile path content = none)
    (henv : ∀ e ∈ w.Environ, (splitFirst '=' e.data).isSome = true) :
    ∃ r, applyTemplateToFile lib opts w fileitem changesets = .ret r ∧
      r.world.WriteFile = w.WriteFile ∧ r.world.Environ = w.Environ := by
  unfold applyTemplateToFile
  cases w.ReadFile fileitem.Path with
  | error err => exact ⟨_, rfl, rfl, rfl⟩
  | ok buffer =>
    obtain ⟨out, hout⟩ := ParseContentAsTemplate_ret lib w buffer changesets henv
    obtain ⟨content, err⟩ := out
    cases err with
    | some err => simp only [hout]; exact ⟨_, rfl, rfl, rfl⟩
    | none =>
      simp only [hout]
      obtain ⟨o, w', hw, h1, h2⟩ := WriteContentToFile_ret opts w fileitem content h
      rw [hw]
      exact ⟨_, rfl, h1, h2⟩

theorem fileTask_ret (cb : Collaborators) (lib : Library) (opts : Options) (w : World)
    (file : Fileitem) (changesets : List Changeset) (h : NoPanic opts w) :
    ∃ result changesets' w', fileTask cb lib opts w file changesets
        = .ret (result, changesets', w') ∧ result.File = file ∧ NoPanic opts w' := by
  have key : ∃ r, (if opts.ModeIsTemplate = true then
        applyTemplateToFile lib opts w file changesets
      else applyChangesetsToFile cb opts w file changesets) = .ret r ∧
      r.world.WriteFile = w.WriteFile ∧ r.world.Environ = w.Environ := by
    by_cases ht : opts.ModeIsTemplate = true
    · rw [if_pos ht]; exact applyTemplateToFile_ret lib opts w file changesets h.1 (h.2 ht)
    · rw [if_neg ht]; exact applyChangesetsToFile_ret cb opts w file changesets h.1
  obtain ⟨r, hr, h1, h2⟩ := key
  unfold fileTask
  rw [hr]
  refine ⟨_, _, _, rfl, rfl, ?_⟩
  unfold NoPanic
  rw [h1, h2]
  exact h

theorem runTasks_ret (cb : Collaborators) (lib : Library) (opts : Options)
    (files : List Fileitem) :
    ∀ (w : World) (changesets : List Changeset), NoPanic opts w →
      ∃ results changesets' w', runTasks cb lib opts w changesets files
          = .ret (results, changesets', w') ∧
        results.map (fun result => result.File) = files := by
  induction files with
  | nil => intro w changesets _; exact ⟨[], changesets, w, rfl, rfl⟩
  | cons file rest ih =>
    intro w changesets h
    obtain ⟨result, cs1, w1, h1, hfile, hq⟩ := fileTask_ret cb lib opts w file changesets h
    obtain ⟨results, cs2, w2, h2, hfiles⟩ := ih w1 cs1 hq
    refine ⟨result :: results, cs2, w2, ?_, ?_⟩
    · simp only [runTasks, h1, h2]
    · simp [hfile, hfiles]

theorem foldl_showResult_count (opts : Options) (results : List Changeresult) :
    ∀ acc : Nat × World,
      (results.foldl (showResult opts) acc).1 = acc.1 + failureCount results := by
  induction results with
  | nil => intro acc; simp [failureCount]
  | cons result rest ih =>
    intro acc
    simp only [List.foldl_cons, ih, failureCount, List.countP_cons]
    cases he : result.Error with
    | none =>
      simp only [showResult, he, Option.isSome_none]
      split <;> simp
    | some err => simp only [showResult, he, Option.isSome_some]; simp; omega

theorem showResults_status (lib : Library) (opts : Options) (w : World)
    (results : List Changeresult) :
    (showResults lib opts w results).1 =
      if 1 ≤ failureCount results then (1, some "One or more files failed") else (0, none) := by
  unfold showResults
  simp only [foldl_showResult_count, Nat.zero_add]
  split <;> rfl

theorem failureCount_pos_iff (results : List Changeresult) :
    1 ≤ failureCount results ↔ ∃ result ∈ results, result.Error ≠ none := by
  unfold failureCount
  rw [Nat.succ_le_iff, List.countP_pos_iff]
  simp [Option.isSome_iff_ne_none]

/-- Whenever no task panics (`NoPanic`), for every non-empty file list of K
files and every order in which the tasks run one after the other,
`actionProcessFiles` collects exactly K outcomes, one per file item, and
returns what the aggregation makes of them; for every order `arrived` in which
these outcomes come off the results channel the failure count and the returned
status are the same, the status is exit 1 with an error when at least one
outcome has a non-nil `Error`, and exit 0 with no error otherwise. -/
theorem actionProcessFiles_outcomes (cb : Collaborators) (lib : Library) (opts : Options)
    (schedule : Schedule) (w : World) (changesets : List Changeset)
    (fileitems : List Fileitem) (hFiles : fileitems ≠ [])
    (hSchedule : (schedule fileitems).Perm fileitems) (hNoPanic : NoPanic opts w) :
    ∃ results changesets' w',
      runTasks cb lib opts w changesets (schedule fileitems) = .ret (results, changesets', w') ∧
      results.length = fileitems.length ∧
      (results.map (fun result => result.File)).Perm fileitems ∧
      actionProcessFiles cb lib opts schedule w changesets fileitems
        = .ret (showResults lib opts w' results) ∧
      ∀ arrived : List Changeresult, arrived.Perm results →
        failureCount arrived = failureCount results ∧
        (showResults lib opts w' arrived).1 = (showResults lib opts w' results).1 ∧
        ((∃ result ∈ arrived, result.Error ≠ none) →
          (showResults lib opts w' arrived).1 = (1, some "One or more files failed")) ∧
        ((¬ ∃ result ∈ arrived, result.Error ≠ none) →
          (showResults lib opts w' arrived).1 = (0, none)) := by
  obtain ⟨results, cs', w', hrun, hmap⟩ :=
    runTasks_ret cb lib opts (schedule fileitems) w changesets hNoPanic
  have hlen : results.length = fileitems.length := by
    have := congrArg List.length hmap
    rw [List.length_map] at this
    rw [this, hSchedule.length_eq]
  refine ⟨results, cs', w', hrun, hlen, hmap ▸ hSchedule, ?_, ?_⟩
  · unfold actionProcessFiles
    rw [if_neg (by simpa [List.length_eq_zero] using hFiles), hrun]
  · intro arrived hperm
    have hcount : failureCount arrived = failureCount results := by
      unfold failureCount
      exact hperm.countP_eq _
    refine ⟨hcount, ?_, ?_, ?_⟩
    · rw [showResults_status, showResults_status, hcount]
    · intro h
      rw [showResults_status, if_pos ((failureCount_pos_iff arrived).2 h)]
    · intro h
      rw [showResults_status, if_neg (fun hc => h ((failureCount_pos_iff arrived).1 hc))]

/-- The outcomes of the files `a.txt` and `b.txt` in a dry run, the tasks
running in reverse order: two outcomes, and the aggregation of them. -/
theorem actionProcessFiles_outcomes_dry_run :
    ∃ results changesets' w',
      runTasks scenarioCollaborators plainLibrary { replaceOptions with DryRun := true } twoFoo
        [fooBaz] (reversed [fileA, fileB]) = .ret (results, changesets', w') ∧
      results.length = [fileA, fileB].length ∧
      actionProcessFiles scenarioCollaborators plainLibrary
        { replaceOptions with DryRun := true } reversed twoFoo [fooBaz] [fileA, fileB]
        = .ret (showResults plainLibrary { replaceOptions with DryRun := true } w' results) :=
  have h := actionProcessFiles_outcomes scenarioCollaborators plainLibrary
    { replaceOptions with DryRun := true } reversed twoFoo [fooBaz] [fileA, fileB]
    (by simp) (List.reverse_perm _) ⟨Or.inl rfl, fun h => by simp [replaceOptions] at h⟩
  let ⟨results, changesets', w', h1, h2, _, h4, _⟩ := h
  ⟨results, changesets', w', h1, h2, h4⟩

/-- C8 fails on the code, by the panic of C7: with the non-empty file list of
`a.txt` alone, or of `a.txt` and `b.txt` in either order of the tasks, where
`a.txt` holds the line `foo` and cannot be written, the write panics in its
goroutine: `actionProcessFiles` collects no outcome and returns no exit status.
With the write possible, the same file lists give one and two outcomes and
exit 0. -/
theorem actionProcessFiles_write_panic_no_outcome :
    (actionProcessFiles scenarioCollaborators plainLibrary replaceOptions inOrder readOnlyA
      [fooBaz] [fileA]).value?.isNone = true ∧
    (actionProcessFiles scenarioCollaborators plainLibrary replaceOptions inOrder readOnlyA
      [fooBaz] [fileA, fileB]).panic? = some "open a.txt: permission denied" ∧
    (actionProcessFiles scenarioCollaborators plainLibrary replaceOptions reversed readOnlyA
      [fooBaz] [fileA, fileB]).panic? = some "open a.txt: permission denied" ∧
    (runTasks scenarioCollaborators plainLibrary replaceOptions twoFoo [fooBaz]
      (reversed [fileA, fileB])).value?.map (fun r => r.1.length) = some 2 ∧
    (actionProcessFiles scenarioCollaborators plainLibrary replaceOptions reversed twoFoo
      [fooBaz] [fileA, fileB]).value?.map (fun r => r.1) = some (0, none) := by
  refine ⟨by decide, by decide, by decide, by decide, by decide⟩

/-- C5 fails on the code: the goroutines share the elements of `changesets`.
With the files `a.txt` and `b.txt`, each holding the line `foo`, the rule
`foo -> baz` and `--once=keep`, the task of `a.txt` leaves the flag of the rule
set; run after it, the task of `b.txt` starts with the flag set, reports
`b.txt no match` and writes nothing, while `b.txt` alone, or run first, is
rewritten to `baz`. With `--once=unique` the task of `b.txt` run after the one
of `a.txt` drops the line and writes an empty `b.txt`. -/
theorem matchFound_shared_across_files :
    (fileTask scenarioCollaborators plainLibrary keepOptions twoFoo fileA [fooBaz]).value?.map
      (fun r => r.2.1.map (fun c => c.MatchFound)) = some [true] ∧
    (runTasks scenarioCollaborators plainLibrary keepOptions twoFoo [fooBaz]
      (inOrder [fileA, fileB])).value?.map
      (fun r => (r.1.map (fun res => (res.File.Path, res.Output)), r.2.2.disk))
      = some ([("a.txt", "a.txt found and replaced match\n"), ("b.txt", "b.txt no match")],
          [("a.txt", "baz\n")]) ∧
    (runTasks scenarioCollaborators plainLibrary keepOptions twoFoo [fooBaz]
      (inOrder [fileB])).value?.map
      (fun r => (r.1.map (fun res => (res.File.Path, res.Output)), r.2.2.disk))
      = some ([("b.txt", "b.txt found and replaced match\n")], [("b.txt", "baz\n")]) ∧
    (runTasks scenarioCollaborators plainLibrary keepOptions twoFoo [fooBaz]
      (reversed [fileA, fileB])).value?.map
      (fun r => (r.1.map (fun res => (res.File.Path, res.Output)), r.2.2.disk))
      = some ([("b.txt", "b.txt found and replaced match\n"), ("a.txt", "a.txt no match")],
          [("b.txt", "baz\n")]) ∧
    (runTasks scenarioCollaborators plainLibrary uniqueOptions twoFoo [fooBaz]
      (inOrder [fileA, fileB])).value?.map (fun r => r.2.2.disk)
      = some [("b.txt", ""), ("a.txt", "baz\n")] := by
  refine ⟨by decide, by decide, by decide, by decide, by decide⟩

/-- C7 fails on the code. A read failure after the first line `foo` of `a.txt`
ends the loop like the end of the input: the truncated buffer `baz` is written
and the outcome is a success with a nil error. A path that cannot be read at
all, a directory for one, is reported `no match` with status true. A write
failure panics in `WriteContentToFile`, in the file function and in the whole
batch, so that the outcome of `b.txt`, which ran first, is lost with it. -/
theorem io_failures_not_per_file_errors :
    (applyChangesetsToFile scenarioCollaborators replaceOptions brokenRead fileA
      [fooBaz]).value?.map (fun r => (r.output, r.status, r.err, r.world.disk))
      = some ("a.txt found and replaced match\n", true, none, [("a.txt", "baz\n")]) ∧
    (applyChangesetsToFile scenarioCollaborators replaceOptions
      (worldOfFiles [("dir", ⟨[], "read dir: is a directory"⟩)] [] []) ⟨"dir", "dir"⟩
      [fooBaz]).value?.map (fun r => (r.output, r.status, r.err, r.world.disk))
      = some ("dir no match", true, none, []) ∧
    (WriteContentToFile replaceOptions readOnlyA fileA "baz\n").panic?
      = some "open a.txt: permission denied" ∧
    (applyChangesetsToFile scenarioCollaborators replaceOptions readOnlyA fileA
      [fooBaz]).panic? = some "open a.txt: permission denied" ∧
    (actionProcessFiles scenarioCollaborators plainLibrary replaceOptions inOrder readOnlyA
      [fooBaz] [fileB, fileA]).panic? = some "open a.txt: permission denied" := by
  refine ⟨by decide, by decide, by decide, by decide, by decide⟩

/-- C9 fails on the code: the pool of `actionProcessFiles` has eight slots
whatever `opts.ThreadCount` is. With `--threads 2` three tasks hold a slot at
once, and eight can; with the default of twenty the ninth task waits. -/
theorem pool_size_ignores_ThreadCount :
    (∀ opts : Options, (newPool opts).Size = 8) ∧
    twoThreads.ThreadCount = 2 ∧
    poolRun (newPool twoThreads) [.spawn, .spawn, .spawn] = some ⟨8, 3⟩ ∧
    poolRun (newPool twoThreads) (List.replicate 8 .spawn) = some ⟨8, 8⟩ ∧
    ({} : Options).ThreadCount = 20 ∧
    poolRun (newPool {}) (List.replicate 9 .spawn) = none := by
  refine ⟨fun _ => rfl, ?_, ?_, ?_, ?_, ?_⟩ <;> decide

/-- C10 fails on the code: `handleSpecialCliOptions` counts the arguments, not
the file list. With `--output out.txt --path dir -s foo -r baz`, no file
argument and the files `a.txt` and `b.txt` in `dir`, no error is returned,
`buildFileitems` gives two file items, and `ReplaceMain` processes both and
ends with exit 0, each file written to its own path. -/
theorem output_with_path_files_accepted :
    (handleSpecialCliOptions plainLibrary outputPathOptions dirWorld []).err = none ∧
    (handleSpecialCliOptions plainLibrary outputPathOptions dirWorld []).shouldExit = false ∧
    (handleSpecialCliOptions plainLibrary outputPathOptions dirWorld []).opts.Output
      = "out.txt" ∧
    (buildFileitems plainLibrary
      (handleSpecialCliOptions plainLibrary outputPathOptions dirWorld []).opts dirWorld
      []).value? = some [⟨"dir/a.txt", "dir/a.txt"⟩, ⟨"dir/b.txt", "dir/b.txt"⟩] ∧
    (ReplaceMain scenarioCollaborators plainLibrary inOrder outputPathOptions dirWorld
      []).value?.map (fun r => (r.1, r.2.disk))
      = some ((0, none), [("dir/b.txt", "baz\n"), ("dir/a.txt", "baz\n")]) := by
  decide

end GoReplace
